import Mathlib

/-!
Shallow embedding of the cancel-order instruction of an on-chain spot DEX
(sources: src/program/src/processor/cancel_order.rs and src/src/processor.rs).

Machine integers (u64 balances, u8 nonce, u128 order identifiers) are
modelled as `Nat` with explicit `2 ^ 64` bounds where overflow matters.
Fallible Rust code (`Result` with `?`) is modelled by the `Outcome` type,
and a Rust panic (`.unwrap()` on an `Err` or `None`) by the distinguished
outcome `Outcome.fatal`.  The single external side effect (the call into
the order-book engine via `invoke_signed`) is recorded in a call log, and
the engine's black-box behaviour is an explicit input (`EngineBehavior`).

Parts of the repository that the instruction uses but whose sources are not
in scope — the `state` module (`DexState`, `UserAccount`), the `utils`
helpers (`check_account_key`, `check_signer`), the host's program-address
derivation, and the external `agnostic_orderbook` engine — are modelled
from the specification; each such definition carries a doc comment starting
with `Modelled from the spec:`.
-/

/-- Account addresses are opaque references; modelled as naturals. -/
abbrev Pubkey := Nat

/-- One more than the largest value a u64 balance field can store. -/
def U64CAP : Nat := 2 ^ 64

inductive Side
  | Bid
  | Ask
deriving DecidableEq

/-- Error values surfaced by the cancel flow.  The spec-level names
`InvalidOwner`, `InvalidMarket`, `InvalidAccountKey` and `InvalidState`
are included alongside the `ProgramError` values the source actually
returns, so that claims phrased in the spec's vocabulary can be stated. -/
inductive DexError
  | InvalidArgument
  | InvalidState
  | InvalidAccountKey
  | InvalidOwner
  | InvalidMarket
  | MissingRequiredSignature
  | NotEnoughAccountKeys
  | DeserializeError
  | AaobError (code : Nat)
deriving DecidableEq

/-- Result of running a fragment of the instruction: normal return,
returned error (Rust `Err`, propagated by `?`), or a panic (Rust
`.unwrap()` on a failure), which on the host aborts the transaction
without surfacing the wrapped error value. -/
inductive Outcome (α : Type)
  | ok (a : α)
  | err (e : DexError)
  | fatal
deriving DecidableEq

/-- Rust `.unwrap()` on a `Result`: an `Err` becomes a panic. -/
def unwrapO {α : Type} : Outcome α → Outcome α
  | .ok a => .ok a
  | .err _ => .fatal
  | .fatal => .fatal

/-- Rust `.unwrap()` on an `Option`: `None` becomes a panic. -/
def unwrapOpt {α : Type} : Option α → Outcome α
  | some a => .ok a
  | none => .fatal

/-- Sequencing of fallible steps (Rust `?`). -/
def Outcome.bind {α β : Type} : Outcome α → (α → Outcome β) → Outcome β
  | .ok a, f => f a
  | .err e, _ => .err e
  | .fatal, _ => .fatal

/-- u64::checked_add — `None` exactly on overflow past `U64CAP - 1`. -/
def checked_add (a b : Nat) : Option Nat :=
  if a + b < U64CAP then some (a + b) else none

/-- u64::checked_sub — `None` exactly on underflow below zero. -/
def checked_sub (a b : Nat) : Option Nat :=
  if b ≤ a then some (a - b) else none

/-- Result of a cancel (or placement) request, read back from the result
register (fields used by the source: `total_asset_qty`, `total_quote_qty`;
the spec's register content also records the side). -/
structure OrderSummary where
  side : Side
  total_asset_qty : Nat
  total_quote_qty : Nat
deriving DecidableEq

/-- Modelled from the spec: MarketState — per-market configuration and
authority record { order-book reference, external-engine program reference,
signer derivation nonce, value-mint references }, plus the tag/version
validated by `check()`.  (The `state` module is not among the sources.) -/
structure DexState where
  tag : Nat
  signer_nonce : Nat
  base_mint : Pubkey
  quote_mint : Pubkey
  orderbook : Pubkey
  aaob_program : Pubkey
deriving DecidableEq

/-- Modelled from the spec: the tag value a valid MarketState record
carries. -/
def DEX_STATE_TAG : Nat := 1

/-- Modelled from the spec: UserAccount header — { owner reference, market
reference, base/quote free and locked balances }. -/
structure UserAccountHeader where
  owner : Pubkey
  market : Pubkey
  base_token_free : Nat
  base_token_locked : Nat
  quote_token_free : Nat
  quote_token_locked : Nat
deriving DecidableEq

/-- Modelled from the spec: UserAccount — header plus a fixed-capacity slab
of order identifiers, each slot either empty or holding an identifier. -/
structure UserAccount where
  header : UserAccountHeader
  orders : List (Option Nat)
deriving DecidableEq

/-- Typed contents of an account's data, standing for its serialized
bytes: a record deserializes successfully exactly when the bytes encode a
record of the requested layout. -/
inductive AccountData
  | marketAcc (d : DexState)
  | userAcc (u : UserAccount)
  | queueAcc (header_ok : Bool)
  | rawAcc
deriving DecidableEq

/-- An account reference as passed to the instruction: address, whether
the host authenticated it as a transaction signer, and its data. -/
structure AccountInfo where
  key : Pubkey
  is_signer : Bool
  data : AccountData
deriving DecidableEq

/-- One delegated invocation of the external engine's cancel entry point:
the account keys placed in the instruction, the order identifier, and the
seed set passed to `invoke_signed`. -/
structure CallRecord where
  aaob_program : Pubkey
  orderbook : Pubkey
  market_signer : Pubkey
  event_queue : Pubkey
  bids : Pubkey
  asks : Pubkey
  order_id : Nat
  seeds : List (List Nat)
deriving DecidableEq

/-- Result of the instruction together with the log of external engine
calls it issued. -/
abbrev Res (α : Type) := Outcome α × List CallRecord

def Res.bind {α β : Type} (x : Res α) (f : α → Res β) : Res β :=
  match x with
  | (.ok a, l) => ((f a).1, l ++ (f a).2)
  | (.err e, l) => (.err e, l)
  | (.fatal, l) => (.fatal, l)

def liftO {α : Type} (o : Outcome α) : Res α := (o, [])

/-- Modelled from the spec: the host's deterministic program-address
derivation from a seed set (market key bytes and nonce) and the program
id.  Any fixed computable function represents it; the claims rely only on
determinism.  The host-side failure case (a seed set hitting the curve) is
not modelled. -/
def create_program_address (seeds : List (List Nat)) (program_id : Pubkey) : Pubkey :=
  (seeds.foldl (fun acc bytes => bytes.foldl (fun a b => a * 257 + b + 1) (acc * 131 + 13)) 5)
      * 1000003 + program_id

/-- Modelled from the spec: `Pubkey::to_bytes`, the byte encoding of an
address used as a derivation seed. -/
def pubkeyBytes (k : Pubkey) : List Nat := [k]

/-- Modelled from the spec: `utils::check_account_key` asserts a supplied
account's address equals the expected one; a mismatch fails
`InvalidAccountKey` (§4.3). -/
def check_account_key (a : AccountInfo) (expected : Pubkey) : Outcome Unit :=
  if a.key = expected then .ok () else .err .InvalidAccountKey

/-- Modelled from the spec: `utils::check_signer` asserts the account was
authenticated as a transaction signer (§4.4 preconditions). -/
def check_signer (a : AccountInfo) : Outcome Unit :=
  if a.is_signer then .ok () else .err .MissingRequiredSignature

/-- Modelled from the spec: `DexState::deserialize` — the market account's
bytes decode as a MarketState record exactly when they hold one. -/
def DexState.deserialize (d : AccountData) : Outcome DexState :=
  match d with
  | .marketAcc ms => .ok ms
  | _ => .err .DeserializeError

/-- Modelled from the spec: `DexState::check()` validates the record's
tag/version before use and fails `InvalidState` on mismatch; read-only
(§4.1). -/
def DexState.check (ms : DexState) : Outcome DexState :=
  if ms.tag = DEX_STATE_TAG then .ok ms else .err .InvalidState

/-- Modelled from the spec: `UserAccount::parse` decodes the user record
from the account's bytes (§4.2). -/
def UserAccount.parse (a : AccountInfo) : Outcome UserAccount :=
  match a.data with
  | .userAcc u => .ok u
  | _ => .err .DeserializeError

/-- Modelled from the spec: `UserAccount::read_order(index)` returns the
identifier at a slab slot; fails `InvalidArgument` if out of range or
empty (§4.2). -/
def UserAccount.read_order (u : UserAccount) (index : Nat) : Outcome Nat :=
  match u.orders.get? index with
  | some (some oid) => .ok oid
  | _ => .err .InvalidArgument

/-- Modelled from the spec: `UserAccount::remove_order(index)` clears that
slab slot for reuse; same failure conditions as `read_order` (§4.2). -/
def UserAccount.remove_order (u : UserAccount) (index : Nat) : Outcome UserAccount :=
  match u.orders.get? index with
  | some (some _) => .ok { u with orders := u.orders.set index none }
  | _ => .err .InvalidArgument

/-- Modelled from the spec: the OrderId codec's designated side bit (the
top bit of the 128-bit identifier); set encodes bid, clear encodes ask
(§3, `agnostic_orderbook::state::get_side_from_order_id`). -/
def get_side_from_order_id (order_id : Nat) : Side :=
  if order_id.testBit 127 then .Bid else .Ask

/-- Modelled from the spec: `EventQueueHeader::deserialize` on the result
region's bytes; succeeds exactly when the region carries a well-formed
header (§6). -/
def deserializeEqHeader (d : AccountData) : Outcome Unit :=
  match d with
  | .queueAcc true => .ok ()
  | _ => .err .DeserializeError

/-- Modelled from the spec: the external engine's black-box response to a
cancel request — on success it synchronously writes an OrderSummary into
the result register and returns; on failure it returns an error leaving
the register untouched (§6). -/
inductive EngineBehavior
  | succeeds (s : OrderSummary)
  | fails (e : DexError)
deriving DecidableEq

/-- The `invoke_signed` of the engine's cancel instruction: the call is
issued (logged), then either the engine's error is propagated by `?`, or
the result register now holds the summary. -/
def invokeEngine (c : CallRecord) (engine : EngineBehavior) : Res (Option OrderSummary) :=
  match engine with
  | .fails e => (.err e, [c])
  | .succeeds s => (.ok (some s), [c])

/-- The required arguments for a cancel-order instruction
(cancel_order.rs lines 21-27). -/
structure Params where
  order_index : Nat
deriving DecidableEq

/-- The cancel-order account set (cancel_order.rs lines 37-47). -/
structure Accounts where
  aaob_program : AccountInfo
  market : AccountInfo
  market_signer : AccountInfo
  orderbook : AccountInfo
  event_queue : AccountInfo
  bids : AccountInfo
  asks : AccountInfo
  user : AccountInfo
  user_owner : AccountInfo
deriving DecidableEq

/-- `Accounts::parse` (cancel_order.rs lines 50-69): consume nine account
references in order via `next_account_info` (fewer fails), then
`check_signer(&a.user_owner).unwrap()`. -/
def Accounts.parse (accounts : List AccountInfo) : Outcome Accounts :=
  match accounts with
  | a0 :: a1 :: a2 :: a3 :: a4 :: a5 :: a6 :: a7 :: a8 :: _ =>
    (unwrapO (check_signer a8)).bind fun _ =>
      .ok ⟨a0, a1, a2, a3, a4, a5, a6, a7, a8⟩
  | _ => .err .NotEnoughAccountKeys

/-- `Accounts::load_user_account` (cancel_order.rs lines 71-82): parse the
user record, then require stored owner = supplied user-owner key and
stored market = supplied market key, failing `InvalidArgument` on either
mismatch. -/
def Accounts.load_user_account (a : Accounts) : Outcome UserAccount :=
  (UserAccount.parse a.user).bind fun user_account =>
    if user_account.header.owner ≠ a.user_owner.key then .err .InvalidArgument
    else if user_account.header.market ≠ a.market.key then .err .InvalidArgument
    else .ok user_account

/-- `check_accounts` (cancel_order.rs lines 178-195): derive the market
signer from the market key bytes and the stored nonce, then check the
supplied market-signer, order-book and engine-program keys; each check's
result is `.unwrap()`ed, so a mismatch panics. -/
def check_accounts (program_id : Pubkey) (market_state : DexState) (a : Accounts) :
    Outcome Unit :=
  let market_signer :=
    create_program_address [pubkeyBytes a.market.key, [market_state.signer_nonce]] program_id
  (unwrapO (check_account_key a.market_signer market_signer)).bind fun _ =>
    (unwrapO (check_account_key a.orderbook market_state.orderbook)).bind fun _ =>
      (unwrapO (check_account_key a.aaob_program market_state.aaob_program)).bind fun _ =>
        .ok ()

/-- The cancel instruction built for the engine, together with the signer
seeds passed to `invoke_signed` (cancel_order.rs lines 106-129). -/
def mkCall (a : Accounts) (order_id : Nat) (market_state : DexState) : CallRecord :=
  { aaob_program := a.aaob_program.key
    orderbook := a.orderbook.key
    market_signer := a.market_signer.key
    event_queue := a.event_queue.key
    bids := a.bids.key
    asks := a.asks.key
    order_id := order_id
    seeds := [pubkeyBytes a.market.key, [market_state.signer_nonce]] }

/-- The conservation update (cancel_order.rs lines 144-169): on the side
extracted from the order identifier, checked-add the reported quantity to
the free balance and checked-sub it from the locked balance; either
checked operation returning `None` is `.unwrap()`ed into a panic. -/
def applyBalanceUpdate (side : Side) (order_summary : OrderSummary)
    (h : UserAccountHeader) : Outcome UserAccountHeader :=
  match side with
  | .Bid =>
    match checked_add h.quote_token_free order_summary.total_quote_qty,
        checked_sub h.quote_token_locked order_summary.total_quote_qty with
    | some qf, some ql => .ok { h with quote_token_free := qf, quote_token_locked := ql }
    | _, _ => .fatal
  | .Ask =>
    match checked_add h.base_token_free order_summary.total_asset_qty,
        checked_sub h.base_token_locked order_summary.total_asset_qty with
    | some bf, some bl => .ok { h with base_token_free := bf, base_token_locked := bl }
    | _, _ => .fatal

/-- `process` (cancel_order.rs lines 85-176), step by step:
parse accounts; deserialize and `check()` the MarketState (the checked
record is serialized back unchanged — reflected in the returned market
state); `load_user_account`; `check_accounts(..).unwrap()`; `read_order`;
`invoke_signed` the engine's cancel (`?` propagates its error);
deserialize the result region's header; `read_register().unwrap().unwrap()`;
apply the balance update for the identifier's side; `remove_order`; and
`write()` the user account — the returned pair is what `write()` and the
market re-serialization persist on success. -/
def process (program_id : Pubkey) (accounts : List AccountInfo) (params : Params)
    (engine : EngineBehavior) : Res (DexState × UserAccount) :=
  Res.bind (liftO (Accounts.parse accounts)) fun a =>
  Res.bind (liftO (DexState.deserialize a.market.data)) fun ms =>
  Res.bind (liftO ms.check) fun market_state =>
  Res.bind (liftO a.load_user_account) fun user_account =>
  Res.bind (liftO (unwrapO (check_accounts program_id market_state a))) fun _ =>
  Res.bind (liftO (user_account.read_order params.order_index)) fun order_id =>
  Res.bind (invokeEngine (mkCall a order_id market_state) engine) fun register =>
  Res.bind (liftO (deserializeEqHeader a.event_queue.data)) fun _ =>
  Res.bind (liftO (unwrapOpt register)) fun order_summary =>
  Res.bind (liftO (applyBalanceUpdate (get_side_from_order_id order_id) order_summary
      user_account.header)) fun header1 =>
  Res.bind (liftO (UserAccount.remove_order { user_account with header := header1 }
      params.order_index)) fun user2 =>
  (.ok (market_state, user2), [])

/-- Replace the data of the account at position `i` (out-of-range is a
no-op). -/
def setData (accounts : List AccountInfo) (i : Nat) (d : AccountData) : List AccountInfo :=
  match accounts.get? i with
  | some ai => accounts.set i { ai with data := d }
  | none => accounts

/-- The host's all-or-nothing persistence: on normal return the market
write-back (position 1) and the user-account `write()` (position 7)
become durable; on a returned error or a panic every pending write is
discarded and the accounts are byte-identical to before. -/
def runCancel (program_id : Pubkey) (accounts : List AccountInfo) (params : Params)
    (engine : EngineBehavior) : List AccountInfo :=
  match process program_id accounts params engine with
  | (.ok (m, u), _) => setData (setData accounts 1 (.marketAcc m)) 7 (.userAcc u)
  | _ => accounts

/-! ### Concrete fixtures (Scenario A of the spec, and variants) -/

def marketFix : DexState :=
  { tag := 1, signer_nonce := 7, base_mint := 11, quote_mint := 12,
    orderbook := 300, aaob_program := 200 }

def signerFix : Pubkey := create_program_address [pubkeyBytes 100, [7]] 42

/-- A bid-tagged order identifier: the designated side bit is set. -/
def bidOrderFix : Nat := 2 ^ 127

def userFix : UserAccount :=
  { header := { owner := 800, market := 100, base_token_free := 10,
                base_token_locked := 20, quote_token_free := 0,
                quote_token_locked := 500 },
    orders := [some bidOrderFix, none] }

def accountsFix : List AccountInfo :=
  [ { key := 200, is_signer := false, data := .rawAcc },
    { key := 100, is_signer := false, data := .marketAcc marketFix },
    { key := signerFix, is_signer := false, data := .rawAcc },
    { key := 300, is_signer := false, data := .rawAcc },
    { key := 400, is_signer := false, data := .queueAcc true },
    { key := 500, is_signer := false, data := .rawAcc },
    { key := 600, is_signer := false, data := .rawAcc },
    { key := 700, is_signer := false, data := .userAcc userFix },
    { key := 800, is_signer := true, data := .rawAcc } ]

def summaryFix : OrderSummary :=
  { side := .Bid, total_asset_qty := 0, total_quote_qty := 500 }

def userFixAfter : UserAccount :=
  { header := { owner := 800, market := 100, base_token_free := 10,
                base_token_locked := 20, quote_token_free := 500,
                quote_token_locked := 0 },
    orders := [none, none] }

def callFix : CallRecord :=
  { aaob_program := 200, orderbook := 300, market_signer := signerFix,
    event_queue := 400, bids := 500, asks := 600, order_id := bidOrderFix,
    seeds := [[100], [7]] }

def userBadOwnerFix : UserAccount :=
  { userFix with header := { userFix.header with owner := 801 } }

def accountsBadOwnerFix : List AccountInfo :=
  accountsFix.set 7 { key := 700, is_signer := false, data := .userAcc userBadOwnerFix }

def accFixBadOwner : Accounts :=
  ⟨⟨200, false, .rawAcc⟩, ⟨100, false, .marketAcc marketFix⟩, ⟨signerFix, false, .rawAcc⟩,
   ⟨300, false, .rawAcc⟩, ⟨400, false, .queueAcc true⟩, ⟨500, false, .rawAcc⟩,
   ⟨600, false, .rawAcc⟩, ⟨700, false, .userAcc userBadOwnerFix⟩, ⟨800, true, .rawAcc⟩⟩

def accountsBadSignerFix : List AccountInfo :=
  accountsFix.set 2 { key := 999, is_signer := false, data := .rawAcc }

def accFixBadSigner : Accounts :=
  ⟨⟨200, false, .rawAcc⟩, ⟨100, false, .marketAcc marketFix⟩, ⟨999, false, .rawAcc⟩,
   ⟨300, false, .rawAcc⟩, ⟨400, false, .queueAcc true⟩, ⟨500, false, .rawAcc⟩,
   ⟨600, false, .rawAcc⟩, ⟨700, false, .userAcc userFix⟩, ⟨800, true, .rawAcc⟩⟩

def accFix : Accounts :=
  ⟨⟨200, false, .rawAcc⟩, ⟨100, false, .marketAcc marketFix⟩, ⟨signerFix, false, .rawAcc⟩,
   ⟨300, false, .rawAcc⟩, ⟨400, false, .queueAcc true⟩, ⟨500, false, .rawAcc⟩,
   ⟨600, false, .rawAcc⟩, ⟨700, false, .userAcc userFix⟩, ⟨800, true, .rawAcc⟩⟩

def summaryOverFix : OrderSummary :=
  { side := .Bid, total_asset_qty := 0, total_quote_qty := 600 }

/-! ### Sequencing and inversion lemmas -/

@[simp]
theorem unwrapO_ok {α : Type} (a : α) : unwrapO (.ok a) = .ok a := rfl

@[simp]
theorem unwrapO_err {α : Type} (e : DexError) : unwrapO (.err e : Outcome α) = .fatal := rfl

@[simp]
theorem unwrapO_fatal {α : Type} : unwrapO (.fatal : Outcome α) = .fatal := rfl

@[simp]
theorem Outcome.bind_ok {α β : Type} (a : α) (f : α → Outcome β) :
    (Outcome.ok a).bind f = f a := rfl

@[simp]
theorem Outcome.bind_err {α β : Type} (e : DexError) (f : α → Outcome β) :
    (Outcome.err e).bind f = .err e := rfl

@[simp]
theorem Outcome.bind_fatal {α β : Type} (f : α → Outcome β) :
    (Outcome.fatal).bind f = .fatal := rfl

@[simp]
theorem Res.bind_liftO_ok {α β : Type} (a : α) (f : α → Res β) :
    Res.bind (liftO (.ok a)) f = f a := by
  simp [Res.bind, liftO]

@[simp]
theorem Res.bind_liftO_err {α β : Type} (e : DexError) (f : α → Res β) :
    Res.bind (liftO (.err e)) f = (.err e, []) := rfl

@[simp]
theorem Res.bind_liftO_fatal {α β : Type} (f : α → Res β) :
    Res.bind (liftO .fatal) f = (.fatal, []) := rfl

@[simp]
theorem Res.bind_invoke_fails {β : Type} (c : CallRecord) (e : DexError)
    (f : Option OrderSummary → Res β) :
    Res.bind (invokeEngine c (.fails e)) f = (.err e, [c]) := rfl

@[simp]
theorem Res.bind_invoke_succeeds {β : Type} (c : CallRecord) (s : OrderSummary)
    (f : Option OrderSummary → Res β) :
    Res.bind (invokeEngine c (.succeeds s)) f =
      ((f (some s)).1, c :: (f (some s)).2) := by
  simp [Res.bind, invokeEngine]

theorem Res.bind_ok_inv {α β : Type} {x : Res α} {f : α → Res β} {b : β}
    {l : List CallRecord} (h : Res.bind x f = (.ok b, l)) :
    ∃ a l1 l2, x = (.ok a, l1) ∧ f a = (.ok b, l2) ∧ l = l1 ++ l2 := by
  rcases x with ⟨o, lx⟩
  cases o with
  | ok a =>
    simp only [Res.bind] at h
    injection h with h1 h2
    exact ⟨a, lx, (f a).2, rfl, by rw [← h1], by rw [← h2]⟩
  | err e => simp [Res.bind] at h
  | fatal => simp [Res.bind] at h

theorem liftO_ok_inv {α : Type} {o : Outcome α} {a : α} {l : List CallRecord}
    (h : liftO o = (.ok a, l)) : o = .ok a ∧ l = [] := by
  simp only [liftO] at h
  injection h with h1 h2
  exact ⟨h1, h2.symm⟩

theorem invokeEngine_ok_inv {c : CallRecord} {engine : EngineBehavior}
    {reg : Option OrderSummary} {l : List CallRecord}
    (h : invokeEngine c engine = (.ok reg, l)) :
    ∃ s, engine = .succeeds s ∧ reg = some s ∧ l = [c] := by
  cases engine with
  | succeeds s =>
    simp only [invokeEngine] at h
    injection h with h1 h2
    exact ⟨s, rfl, by injection h1 with h3; exact h3.symm, h2.symm⟩
  | fails e => simp [invokeEngine] at h

/-- Full characterization of a successful run of `process`: every stage
succeeded, the engine reported a summary, and exactly one engine call was
issued. -/
theorem process_ok_inv {program_id : Pubkey} {accounts : List AccountInfo}
    {params : Params} {engine : EngineBehavior} {m' : DexState} {u' : UserAccount}
    {cs : List CallRecord}
    (hp : process program_id accounts params engine = (.ok (m', u'), cs)) :
    ∃ a ms u0 oid s h1,
      Accounts.parse accounts = .ok a ∧
      DexState.deserialize a.market.data = .ok ms ∧
      ms.check = .ok m' ∧
      a.load_user_account = .ok u0 ∧
      unwrapO (check_accounts program_id m' a) = .ok () ∧
      u0.read_order params.order_index = .ok oid ∧
      engine = .succeeds s ∧
      deserializeEqHeader a.event_queue.data = .ok () ∧
      applyBalanceUpdate (get_side_from_order_id oid) s u0.header = .ok h1 ∧
      UserAccount.remove_order { u0 with header := h1 } params.order_index = .ok u' ∧
      cs = [mkCall a oid m'] := by
  unfold process at hp
  obtain ⟨a, la, l2, hxa, hp, hcs⟩ := Res.bind_ok_inv hp
  obtain ⟨hparse, hla⟩ := liftO_ok_inv hxa
  obtain ⟨ms, lb, l3, hxb, hp, hc2⟩ := Res.bind_ok_inv hp
  obtain ⟨hdeser, hlb⟩ := liftO_ok_inv hxb
  obtain ⟨mstate, lc, l4, hxc, hp, hc3⟩ := Res.bind_ok_inv hp
  obtain ⟨hcheck, hlc⟩ := liftO_ok_inv hxc
  obtain ⟨u0, ld, l5, hxd, hp, hc4⟩ := Res.bind_ok_inv hp
  obtain ⟨hload, hld⟩ := liftO_ok_inv hxd
  obtain ⟨unit1, le, l6, hxe, hp, hc5⟩ := Res.bind_ok_inv hp
  obtain ⟨hca, hle⟩ := liftO_ok_inv hxe
  obtain ⟨oid, lf, l7, hxf, hp, hc6⟩ := Res.bind_ok_inv hp
  obtain ⟨hro, hlf⟩ := liftO_ok_inv hxf
  obtain ⟨reg, lg, l8, hxg, hp, hc7⟩ := Res.bind_ok_inv hp
  obtain ⟨s, hengine, hreg, hlg⟩ := invokeEngine_ok_inv hxg
  obtain ⟨unit2, lh, l9, hxh, hp, hc8⟩ := Res.bind_ok_inv hp
  obtain ⟨heq, hlh⟩ := liftO_ok_inv hxh
  obtain ⟨summary, li, l10, hxi, hp, hc9⟩ := Res.bind_ok_inv hp
  obtain ⟨hsum, hli⟩ := liftO_ok_inv hxi
  obtain ⟨h1, lj, l11, hxj, hp, hc10⟩ := Res.bind_ok_inv hp
  obtain ⟨happly, hlj⟩ := liftO_ok_inv hxj
  obtain ⟨u2, lk, l12, hxk, hp, hc11⟩ := Res.bind_ok_inv hp
  obtain ⟨hrem, hlk⟩ := liftO_ok_inv hxk
  injection hp with hp1 hp2
  injection hp1 with hpp
  injection hpp with hm hu
  subst hm
  subst hu
  subst hengine
  rw [hreg] at hsum
  simp only [unwrapOpt] at hsum
  injection hsum with hsum
  subst hsum
  refine ⟨a, ms, u0, oid, s, h1, hparse, hdeser, ?_, hload, ?_, hro, rfl, heq, happly, hrem, ?_⟩
  · rw [hcheck]
  · exact hca
  · subst hcs hc2 hc3 hc4 hc5 hc6 hc7 hc8 hc9 hc10 hc11
    subst hla hlb hlc hld hle hlf hlg hlh hli hlj hlk
    simp [← hp2]

theorem Accounts.parse_ok_inv {accounts : List AccountInfo} {a : Accounts}
    (h : Accounts.parse accounts = .ok a) :
    ∃ rest, accounts =
        a.aaob_program :: a.market :: a.market_signer :: a.orderbook :: a.event_queue ::
          a.bids :: a.asks :: a.user :: a.user_owner :: rest ∧
      a.user_owner.is_signer = true := by
  match accounts with
  | a0 :: a1 :: a2 :: a3 :: a4 :: a5 :: a6 :: a7 :: a8 :: rest =>
    refine ⟨rest, ?_⟩
    by_cases hs : a8.is_signer
    · simp only [Accounts.parse, check_signer, hs, if_true] at h
      simp only [unwrapO, Outcome.bind] at h
      injection h with h1
      subst h1
      exact ⟨rfl, hs⟩
    · simp only [Accounts.parse, check_signer, hs, if_false] at h
      simp [unwrapO, Outcome.bind] at h
  | [] => simp [Accounts.parse] at h
  | [a0] => simp [Accounts.parse] at h
  | [a0, a1] => simp [Accounts.parse] at h
  | [a0, a1, a2] => simp [Accounts.parse] at h
  | [a0, a1, a2, a3] => simp [Accounts.parse] at h
  | [a0, a1, a2, a3, a4] => simp [Accounts.parse] at h
  | [a0, a1, a2, a3, a4, a5] => simp [Accounts.parse] at h
  | [a0, a1, a2, a3, a4, a5, a6] => simp [Accounts.parse] at h
  | [a0, a1, a2, a3, a4, a5, a6, a7] => simp [Accounts.parse] at h

theorem Accounts.parse_short {accounts : List AccountInfo} (h : accounts.length < 9) :
    Accounts.parse accounts = .err .NotEnoughAccountKeys := by
  match accounts with
  | [] => rfl
  | [a0] => rfl
  | [a0, a1] => rfl
  | [a0, a1, a2] => rfl
  | [a0, a1, a2, a3] => rfl
  | [a0, a1, a2, a3, a4] => rfl
  | [a0, a1, a2, a3, a4, a5] => rfl
  | [a0, a1, a2, a3, a4, a5, a6] => rfl
  | [a0, a1, a2, a3, a4, a5, a6, a7] => rfl
  | a0 :: a1 :: a2 :: a3 :: a4 :: a5 :: a6 :: a7 :: a8 :: rest =>
    simp only [List.length_cons] at h
    omega

theorem DexState.check_ok_inv {ms m' : DexState} (h : ms.check = .ok m') :
    m' = ms ∧ ms.tag = DEX_STATE_TAG := by
  unfold DexState.check at h
  by_cases ht : ms.tag = DEX_STATE_TAG
  · rw [if_pos ht] at h
    injection h with h1
    exact ⟨h1.symm, ht⟩
  · rw [if_neg ht] at h
    injection h

theorem Accounts.load_user_account_ok_inv {a : Accounts} {u0 : UserAccount}
    (h : a.load_user_account = .ok u0) :
    a.user.data = .userAcc u0 ∧ u0.header.owner = a.user_owner.key ∧
      u0.header.market = a.market.key := by
  unfold Accounts.load_user_account UserAccount.parse at h
  match hd : a.user.data with
  | .userAcc u =>
    rw [hd] at h
    simp only [Outcome.bind] at h
    by_cases ho : u.header.owner = a.user_owner.key
    · by_cases hm : u.header.market = a.market.key
      · simp only [ho, hm, ne_eq, not_true_eq_false, if_false] at h
        injection h with h1
        subst h1
        exact ⟨rfl, ho, hm⟩
      · simp [ho, hm] at h
    · simp [ho] at h
  | .marketAcc d => rw [hd] at h; simp [Outcome.bind] at h
  | .queueAcc b => rw [hd] at h; simp [Outcome.bind] at h
  | .rawAcc => rw [hd] at h; simp [Outcome.bind] at h

theorem check_accounts_ok_iff {program_id : Pubkey} {ms : DexState} {a : Accounts} :
    unwrapO (check_accounts program_id ms a) = .ok () ↔
      (a.market_signer.key =
          create_program_address [pubkeyBytes a.market.key, [ms.signer_nonce]] program_id ∧
        a.orderbook.key = ms.orderbook ∧ a.aaob_program.key = ms.aaob_program) := by
  rcases Decidable.em (a.market_signer.key =
      create_program_address [pubkeyBytes a.market.key, [ms.signer_nonce]] program_id) with h1 | h1 <;>
    rcases Decidable.em (a.orderbook.key = ms.orderbook) with h2 | h2 <;>
      rcases Decidable.em (a.aaob_program.key = ms.aaob_program) with h3 | h3 <;>
        simp [check_accounts, check_account_key, unwrapO, Outcome.bind, h1, h2, h3]

theorem check_accounts_ne_err {program_id : Pubkey} {ms : DexState} {a : Accounts}
    {e : DexError} : unwrapO (check_accounts program_id ms a) ≠ .err e := by
  rcases Decidable.em (a.market_signer.key =
      create_program_address [pubkeyBytes a.market.key, [ms.signer_nonce]] program_id) with h1 | h1 <;>
    rcases Decidable.em (a.orderbook.key = ms.orderbook) with h2 | h2 <;>
      rcases Decidable.em (a.aaob_program.key = ms.aaob_program) with h3 | h3 <;>
        simp [check_accounts, check_account_key, unwrapO, Outcome.bind, h1, h2, h3]

theorem check_accounts_fatal {program_id : Pubkey} {ms : DexState} {a : Accounts}
    (h : ¬ (a.market_signer.key =
          create_program_address [pubkeyBytes a.market.key, [ms.signer_nonce]] program_id ∧
        a.orderbook.key = ms.orderbook ∧ a.aaob_program.key = ms.aaob_program)) :
    unwrapO (check_accounts program_id ms a) = .fatal := by
  rcases hc : unwrapO (check_accounts program_id ms a) with a' | e | _
  · exact absurd (check_accounts_ok_iff.mp (by rw [hc])) h
  · exact absurd hc check_accounts_ne_err
  · rfl

theorem UserAccount.read_order_ok_inv {u : UserAccount} {index oid : Nat}
    (h : u.read_order index = .ok oid) : u.orders.get? index = some (some oid) := by
  unfold UserAccount.read_order at h
  match hg : u.orders.get? index with
  | some (some o) =>
    rw [hg] at h
    injection h with h1
    rw [h1]
  | some none => rw [hg] at h; exact absurd h (by simp)
  | none => rw [hg] at h; exact absurd h (by simp)

theorem UserAccount.remove_order_ok_inv {u u' : UserAccount} {index : Nat}
    (h : u.remove_order index = .ok u') :
    u' = { u with orders := u.orders.set index none } := by
  unfold UserAccount.remove_order at h
  match hg : u.orders.get? index with
  | some (some o) =>
    rw [hg] at h
    injection h with h1
    exact h1.symm
  | some none => rw [hg] at h; exact absurd h (by simp)
  | none => rw [hg] at h; exact absurd h (by simp)

theorem applyBalanceUpdate_bid_ok_inv {s : OrderSummary} {h h1 : UserAccountHeader}
    (hb : applyBalanceUpdate .Bid s h = .ok h1) :
    s.total_quote_qty ≤ h.quote_token_locked ∧
      h.quote_token_free + s.total_quote_qty < U64CAP ∧
      h1 = { h with quote_token_free := h.quote_token_free + s.total_quote_qty,
                    quote_token_locked := h.quote_token_locked - s.total_quote_qty } := by
  unfold applyBalanceUpdate checked_add checked_sub at hb
  by_cases hadd : h.quote_token_free + s.total_quote_qty < U64CAP
  · by_cases hsub : s.total_quote_qty ≤ h.quote_token_locked
    · rw [if_pos hadd, if_pos hsub] at hb
      injection hb with hb1
      exact ⟨hsub, hadd, hb1.symm⟩
    · rw [if_pos hadd, if_neg hsub] at hb
      exact absurd hb (by simp)
  · rw [if_neg hadd] at hb
    exact absurd hb (by simp)

theorem applyBalanceUpdate_ask_ok_inv {s : OrderSummary} {h h1 : UserAccountHeader}
    (hb : applyBalanceUpdate .Ask s h = .ok h1) :
    s.total_asset_qty ≤ h.base_token_locked ∧
      h.base_token_free + s.total_asset_qty < U64CAP ∧
      h1 = { h with base_token_free := h.base_token_free + s.total_asset_qty,
                    base_token_locked := h.base_token_locked - s.total_asset_qty } := by
  unfold applyBalanceUpdate checked_add checked_sub at hb
  by_cases hadd : h.base_token_free + s.total_asset_qty < U64CAP
  · by_cases hsub : s.total_asset_qty ≤ h.base_token_locked
    · rw [if_pos hadd, if_pos hsub] at hb
      injection hb with hb1
      exact ⟨hsub, hadd, hb1.symm⟩
    · rw [if_pos hadd, if_neg hsub] at hb
      exact absurd hb (by simp)
  · rw [if_neg hadd] at hb
    exact absurd hb (by simp)

theorem runCancel_of_err {program_id : Pubkey} {accounts : List AccountInfo}
    {params : Params} {engine : EngineBehavior} {e : DexError} {cs : List CallRecord}
    (h : process program_id accounts params engine = (.err e, cs)) :
    runCancel program_id accounts params engine = accounts := by
  unfold runCancel
  rw [h]

theorem runCancel_of_fatal {program_id : Pubkey} {accounts : List AccountInfo}
    {params : Params} {engine : EngineBehavior} {cs : List CallRecord}
    (h : process program_id accounts params engine = (.fatal, cs)) :
    runCancel program_id accounts params engine = accounts := by
  unfold runCancel
  rw [h]

/-- Everything a successful run guarantees, phrased against the initial
account contents: the market record written back is the one read, the
order at `order_index` existed, its slot is cleared and no other slot or
header field changes, and the side's balances move by exactly the reported
quantity (which the checked arithmetic forces to fit). -/
theorem process_ok_spec {program_id : Pubkey} {accounts : List AccountInfo}
    {params : Params} {engine : EngineBehavior} {m' : DexState} {u' : UserAccount}
    {cs : List CallRecord} {u0 : UserAccount} {s : OrderSummary}
    (hp : process program_id accounts params engine = (.ok (m', u'), cs))
    (hu : (accounts.get? 7).map AccountInfo.data = some (.userAcc u0))
    (hs : engine = .succeeds s) :
    ∃ oid,
      u0.read_order params.order_index = .ok oid ∧
      u'.header.owner = u0.header.owner ∧
      u'.header.market = u0.header.market ∧
      u'.orders = u0.orders.set params.order_index none ∧
      (get_side_from_order_id oid = .Bid →
        s.total_quote_qty ≤ u0.header.quote_token_locked ∧
        u0.header.quote_token_free + s.total_quote_qty < U64CAP ∧
        u'.header = { u0.header with
          quote_token_free := u0.header.quote_token_free + s.total_quote_qty,
          quote_token_locked := u0.header.quote_token_locked - s.total_quote_qty }) ∧
      (get_side_from_order_id oid = .Ask →
        s.total_asset_qty ≤ u0.header.base_token_locked ∧
        u0.header.base_token_free + s.total_asset_qty < U64CAP ∧
        u'.header = { u0.header with
          base_token_free := u0.header.base_token_free + s.total_asset_qty,
          base_token_locked := u0.header.base_token_locked - s.total_asset_qty }) := by
  obtain ⟨a, ms, u1, oid, s', h1, hparse, hdeser, hcheck, hload, hca, hro, hengine, heq,
    happly, hrem, hcs⟩ := process_ok_inv hp
  obtain ⟨rest, hacc, hsig⟩ := Accounts.parse_ok_inv hparse
  have huk : accounts.get? 7 = some a.user := by
    rw [hacc]
    rfl
  rw [huk] at hu
  simp only [Option.map_some'] at hu
  injection hu with hu
  obtain ⟨hud, hown, hmkt⟩ := Accounts.load_user_account_ok_inv hload
  have hu1 : u1 = u0 := by
    rw [hu] at hud
    injection hud with h
    exact h.symm
  subst hu1
  have hs' : s' = s := by
    rw [hs] at hengine
    injection hengine with h
    exact h.symm
  subst hs'
  have hu'eq := UserAccount.remove_order_ok_inv hrem
  refine ⟨oid, hro, ?_, ?_, ?_, ?_, ?_⟩
  · rw [hu'eq]
    cases hside : get_side_from_order_id oid with
    | Bid =>
      rw [hside] at happly
      obtain ⟨_, _, hh1⟩ := applyBalanceUpdate_bid_ok_inv happly
      rw [hh1]
    | Ask =>
      rw [hside] at happly
      obtain ⟨_, _, hh1⟩ := applyBalanceUpdate_ask_ok_inv happly
      rw [hh1]
  · rw [hu'eq]
    cases hside : get_side_from_order_id oid with
    | Bid =>
      rw [hside] at happly
      obtain ⟨_, _, hh1⟩ := applyBalanceUpdate_bid_ok_inv happly
      rw [hh1]
    | Ask =>
      rw [hside] at happly
      obtain ⟨_, _, hh1⟩ := applyBalanceUpdate_ask_ok_inv happly
      rw [hh1]
  · rw [hu'eq]
  · intro hside
    rw [hside] at happly
    obtain ⟨hle, hlt, hh1⟩ := applyBalanceUpdate_bid_ok_inv happly
    refine ⟨hle, hlt, ?_⟩
    rw [hu'eq, hh1]
  · intro hside
    rw [hside] at happly
    obtain ⟨hle, hlt, hh1⟩ := applyBalanceUpdate_ask_ok_inv happly
    refine ⟨hle, hlt, ?_⟩
    rw [hu'eq, hh1]

/-- On success the market record written back (position 1 of the account
list) is exactly the record that was read: the defensive round-trip
persists it unchanged. -/
theorem process_ok_market {program_id : Pubkey} {accounts : List AccountInfo}
    {params : Params} {engine : EngineBehavior} {m' : DexState} {u' : UserAccount}
    {cs : List CallRecord} {ms0 : DexState}
    (hp : process program_id accounts params engine = (.ok (m', u'), cs))
    (hm : (accounts.get? 1).map AccountInfo.data = some (.marketAcc ms0)) :
    m' = ms0 := by
  obtain ⟨a, ms, u1, oid, s', h1, hparse, hdeser, hcheck, hload, hca, hro, hengine, heq,
    happly, hrem, hcs⟩ := process_ok_inv hp
  obtain ⟨rest, hacc, hsig⟩ := Accounts.parse_ok_inv hparse
  have hmk : accounts.get? 1 = some a.market := by
    rw [hacc]
    rfl
  rw [hmk] at hm
  simp only [Option.map_some'] at hm
  injection hm with hm
  have hms : ms = ms0 := by
    unfold DexState.deserialize at hdeser
    rw [hm] at hdeser
    injection hdeser with h
    exact h.symm
  obtain ⟨hm'eq, htag⟩ := DexState.check_ok_inv hcheck
  rw [hm'eq, hms]

/-! ### The claims -/

/-- Claim C1: for every successful cancel-order instruction, the balance
update on the asset side matching the order's side conserves funds exactly
— the free balance is incremented by the reported unfilled quantity and
the locked balance is decremented by the same quantity (so
free_after − free_before = locked_before − locked_after) — and the
free/locked balances of the other asset side are unchanged. -/
theorem claim_C1_cancel_conserves_funds {program_id : Pubkey}
    {accounts : List AccountInfo} {params : Params} {engine : EngineBehavior}
    {m' : DexState} {u' : UserAccount} {cs : List CallRecord}
    {u0 : UserAccount} {s : OrderSummary}
    (hp : process program_id accounts params engine = (.ok (m', u'), cs))
    (hu : (accounts.get? 7).map AccountInfo.data = some (.userAcc u0))
    (hs : engine = .succeeds s) :
    ∃ oid, u0.read_order params.order_index = .ok oid ∧
      (get_side_from_order_id oid = .Bid →
        u'.header.quote_token_free = u0.header.quote_token_free + s.total_quote_qty ∧
        u0.header.quote_token_locked = u'.header.quote_token_locked + s.total_quote_qty ∧
        u'.header.base_token_free = u0.header.base_token_free ∧
        u'.header.base_token_locked = u0.header.base_token_locked) ∧
      (get_side_from_order_id oid = .Ask →
        u'.header.base_token_free = u0.header.base_token_free + s.total_asset_qty ∧
        u0.header.base_token_locked = u'.header.base_token_locked + s.total_asset_qty ∧
        u'.header.quote_token_free = u0.header.quote_token_free ∧
        u'.header.quote_token_locked = u0.header.quote_token_locked) := by
  obtain ⟨oid, hro, hown, hmkt, hord, hbid, hask⟩ := process_ok_spec hp hu hs
  refine ⟨oid, hro, ?_, ?_⟩
  · intro hside
    obtain ⟨hle, hlt, hh⟩ := hbid hside
    rw [hh]
    refine ⟨rfl, ?_, rfl, rfl⟩
    exact (Nat.sub_add_cancel hle).symm
  · intro hside
    obtain ⟨hle, hlt, hh⟩ := hask hside
    rw [hh]
    refine ⟨rfl, ?_, rfl, rfl⟩
    exact (Nat.sub_add_cancel hle).symm

/-- Witness for C1: Scenario A — a bid order with 500 locked quote units
cancelled in full moves exactly 500 from quote-locked to quote-free and
leaves the base side untouched. -/
theorem claim_C1_cancel_conserves_funds_witness :
    ∃ oid, UserAccount.read_order userFix (Params.mk 0).order_index = .ok oid ∧
      (get_side_from_order_id oid = .Bid →
        userFixAfter.header.quote_token_free =
          userFix.header.quote_token_free + summaryFix.total_quote_qty ∧
        userFix.header.quote_token_locked =
          userFixAfter.header.quote_token_locked + summaryFix.total_quote_qty ∧
        userFixAfter.header.base_token_free = userFix.header.base_token_free ∧
        userFixAfter.header.base_token_locked = userFix.header.base_token_locked) ∧
      (get_side_from_order_id oid = .Ask →
        userFixAfter.header.base_token_free =
          userFix.header.base_token_free + summaryFix.total_asset_qty ∧
        userFix.header.base_token_locked =
          userFixAfter.header.base_token_locked + summaryFix.total_asset_qty ∧
        userFixAfter.header.quote_token_free = userFix.header.quote_token_free ∧
        userFixAfter.header.quote_token_locked = userFix.header.quote_token_locked) :=
  @claim_C1_cancel_conserves_funds 42 accountsFix (Params.mk 0) (.succeeds summaryFix)
    marketFix userFixAfter [callFix] userFix summaryFix (by decide) (by decide) rfl

/-- Claim C2: the side extracted from the order identifier fully determines
which balances are touched: an identifier whose side bit encodes bid
modifies only the quote free/locked balances, one whose side bit encodes
ask modifies only the base free/locked balances, and in each case only the
matching side's reported quantity is applied while the other side's
reported quantity is ignored. -/
theorem claim_C2_side_determines_balances {program_id : Pubkey}
    {accounts : List AccountInfo} {params : Params} {engine : EngineBehavior}
    {m' : DexState} {u' : UserAccount} {cs : List CallRecord}
    {u0 : UserAccount} {s : OrderSummary} {oid : Nat}
    (hp : process program_id accounts params engine = (.ok (m', u'), cs))
    (hu : (accounts.get? 7).map AccountInfo.data = some (.userAcc u0))
    (hs : engine = .succeeds s)
    (ho : u0.read_order params.order_index = .ok oid) :
    (get_side_from_order_id oid = .Bid ↔ oid.testBit 127 = true) ∧
    (oid.testBit 127 = true →
      u'.header.base_token_free = u0.header.base_token_free ∧
      u'.header.base_token_locked = u0.header.base_token_locked ∧
      u'.header = { u0.header with
        quote_token_free := u0.header.quote_token_free + s.total_quote_qty,
        quote_token_locked := u0.header.quote_token_locked - s.total_quote_qty } ∧
      ∀ x, applyBalanceUpdate .Bid { s with total_asset_qty := x } u0.header =
        applyBalanceUpdate .Bid s u0.header) ∧
    (oid.testBit 127 = false →
      u'.header.quote_token_free = u0.header.quote_token_free ∧
      u'.header.quote_token_locked = u0.header.quote_token_locked ∧
      u'.header = { u0.header with
        base_token_free := u0.header.base_token_free + s.total_asset_qty,
        base_token_locked := u0.header.base_token_locked - s.total_asset_qty } ∧
      ∀ x, applyBalanceUpdate .Ask { s with total_quote_qty := x } u0.header =
        applyBalanceUpdate .Ask s u0.header) := by
  obtain ⟨oid', hro, hown, hmkt, hord, hbid, hask⟩ := process_ok_spec hp hu hs
  rw [ho] at hro
  injection hro with hoid
  subst hoid
  refine ⟨?_, ?_, ?_⟩
  · unfold get_side_from_order_id
    by_cases hb : oid.testBit 127 <;> simp [hb]
  · intro hbit
    have hside : get_side_from_order_id oid = .Bid := by
      unfold get_side_from_order_id
      simp [hbit]
    obtain ⟨hle, hlt, hh⟩ := hbid hside
    exact ⟨by rw [hh], by rw [hh], hh, fun x => rfl⟩
  · intro hbit
    have hside : get_side_from_order_id oid = .Ask := by
      unfold get_side_from_order_id
      simp [hbit]
    obtain ⟨hle, hlt, hh⟩ := hask hside
    exact ⟨by rw [hh], by rw [hh], hh, fun x => rfl⟩

/-- Witness for C2: the bid-tagged fixture order only moves the quote
balances, and the update ignores the reported base quantity. -/
theorem claim_C2_side_determines_balances_witness :
    (get_side_from_order_id bidOrderFix = .Bid ↔ bidOrderFix.testBit 127 = true) ∧
    (bidOrderFix.testBit 127 = true →
      userFixAfter.header.base_token_free = userFix.header.base_token_free ∧
      userFixAfter.header.base_token_locked = userFix.header.base_token_locked ∧
      userFixAfter.header = { userFix.header with
        quote_token_free := userFix.header.quote_token_free + summaryFix.total_quote_qty,
        quote_token_locked := userFix.header.quote_token_locked - summaryFix.total_quote_qty } ∧
      ∀ x, applyBalanceUpdate .Bid { summaryFix with total_asset_qty := x } userFix.header =
        applyBalanceUpdate .Bid summaryFix userFix.header) ∧
    (bidOrderFix.testBit 127 = false →
      userFixAfter.header.quote_token_free = userFix.header.quote_token_free ∧
      userFixAfter.header.quote_token_locked = userFix.header.quote_token_locked ∧
      userFixAfter.header = { userFix.header with
        base_token_free := userFix.header.base_token_free + summaryFix.total_asset_qty,
        base_token_locked := userFix.header.base_token_locked - summaryFix.total_asset_qty } ∧
      ∀ x, applyBalanceUpdate .Ask { summaryFix with total_quote_qty := x } userFix.header =
        applyBalanceUpdate .Ask summaryFix userFix.header) :=
  @claim_C2_side_determines_balances 42 accountsFix (Params.mk 0) (.succeeds summaryFix)
    marketFix userFixAfter [callFix] userFix summaryFix bidOrderFix
    (by decide) (by decide) rfl (by decide)

/-- Counterexample to C3 as stated: with the stored owner (801) differing
from the supplied user-owner key (800), the instruction fails with the
generic `InvalidArgument`, not with a distinct `InvalidOwner` error. -/
theorem claim_C3_counterexample :
    userBadOwnerFix.header.owner ≠ (800 : Pubkey) ∧
    process 42 accountsBadOwnerFix (Params.mk 0) (.succeeds summaryFix) =
      (.err .InvalidArgument, []) ∧
    DexError.InvalidArgument ≠ DexError.InvalidOwner ∧
    DexError.InvalidArgument ≠ DexError.InvalidMarket := by
  decide

/-- Claim C3 (amended): when loading the caller's UserAccount, a stored
owner differing from the supplied user-owner, or (owner matching) a stored
market differing from the current market, fails the instruction with
`InvalidArgument` (the code does not surface distinct `InvalidOwner` /
`InvalidMarket` values); the check runs for every order index, before any
external call, and no account mutation is persisted. -/
theorem claim_C3_owner_market_checks {program_id : Pubkey}
    {accounts : List AccountInfo} {engine : EngineBehavior}
    {a : Accounts} {ms m : DexState} {u0 : UserAccount}
    (hparse : Accounts.parse accounts = .ok a)
    (hdeser : DexState.deserialize a.market.data = .ok ms)
    (hcheck : ms.check = .ok m)
    (hpu : UserAccount.parse a.user = .ok u0)
    (hmis : u0.header.owner ≠ a.user_owner.key ∨
      (u0.header.owner = a.user_owner.key ∧ u0.header.market ≠ a.market.key)) :
    ∀ params : Params,
      process program_id accounts params engine = (.err .InvalidArgument, []) ∧
      runCancel program_id accounts params engine = accounts := by
  have hload : a.load_user_account = .err .InvalidArgument := by
    unfold Accounts.load_user_account
    rw [hpu]
    rcases hmis with how | ⟨how, hmm⟩
    · simp [Outcome.bind, how]
    · simp [Outcome.bind, how, hmm]
  intro params
  have hproc : process program_id accounts params engine = (.err .InvalidArgument, []) := by
    simp only [process, hparse, hdeser, hcheck, hload, Res.bind_liftO_ok, Res.bind_liftO_err]
  exact ⟨hproc, runCancel_of_err hproc⟩

/-- Witness for the amended C3: the owner-mismatch fixture fails with
`InvalidArgument` even for an out-of-range order index (5), leaving the
accounts untouched. -/
theorem claim_C3_owner_market_checks_witness :
    process 42 accountsBadOwnerFix (Params.mk 5) (.succeeds summaryFix) =
      (.err .InvalidArgument, []) ∧
    runCancel 42 accountsBadOwnerFix (Params.mk 5) (.succeeds summaryFix) =
      accountsBadOwnerFix :=
  @claim_C3_owner_market_checks 42 accountsBadOwnerFix (.succeeds summaryFix)
    accFixBadOwner marketFix marketFix userBadOwnerFix
    (by decide) (by decide) (by decide) (by decide)
    (Or.inl (by decide)) (Params.mk 5)

/-- Counterexample to C4 as stated: with a market-signer reference (999)
differing from the derived address, the instruction aborts with a panic
(`check_accounts(..).unwrap()` / `check_account_key(..).unwrap()`), which
is a fatal abort, not a returned `InvalidAccountKey` error; the external
engine call is still never issued. -/
theorem claim_C4_counterexample :
    (999 : Pubkey) ≠ signerFix ∧
    process 42 accountsBadSignerFix (Params.mk 0) (.succeeds summaryFix) = (.fatal, []) ∧
    (Outcome.fatal : Outcome (DexState × UserAccount)) ≠ .err .InvalidAccountKey := by
  decide

/-- Claim C4 (amended): if the supplied market-signer differs from the
address derived from the market reference and the stored nonce, or the
supplied order-book or external-engine reference differs from the one
stored in MarketState, the instruction aborts before the external engine
call is issued — but through the fatal panic of the `.unwrap()` on the
failed `InvalidAccountKey` check, not by returning that error — and no
account mutation is persisted. -/
theorem claim_C4_account_mismatch_aborts {program_id : Pubkey}
    {accounts : List AccountInfo} {params : Params} {engine : EngineBehavior}
    {a : Accounts} {ms m : DexState} {u0 : UserAccount}
    (hparse : Accounts.parse accounts = .ok a)
    (hdeser : DexState.deserialize a.market.data = .ok ms)
    (hcheck : ms.check = .ok m)
    (hload : a.load_user_account = .ok u0)
    (hmis : ¬ (a.market_signer.key =
          create_program_address [pubkeyBytes a.market.key, [m.signer_nonce]] program_id ∧
        a.orderbook.key = m.orderbook ∧ a.aaob_program.key = m.aaob_program)) :
    process program_id accounts params engine = (.fatal, []) ∧
    runCancel program_id accounts params engine = accounts := by
  have hfat := check_accounts_fatal hmis
  have hproc : process program_id accounts params engine = (.fatal, []) := by
    simp only [process, hparse, hdeser, hcheck, hload, hfat, Res.bind_liftO_ok,
      Res.bind_liftO_fatal]
  exact ⟨hproc, runCancel_of_fatal hproc⟩

/-- Witness for the amended C4: the bad-signer fixture aborts fatally with
an empty call log and unchanged accounts. -/
theorem claim_C4_account_mismatch_aborts_witness :
    process 42 accountsBadSignerFix (Params.mk 0) (.succeeds summaryFix) = (.fatal, []) ∧
    runCancel 42 accountsBadSignerFix (Params.mk 0) (.succeeds summaryFix) =
      accountsBadSignerFix :=
  @claim_C4_account_mismatch_aborts 42 accountsBadSignerFix (Params.mk 0)
    (.succeeds summaryFix) accFixBadSigner marketFix marketFix userFix
    (by decide) (by decide) (by decide) (by decide)
    (fun hcon => by
      have h9 : (999 : Pubkey) = signerFix := hcon.1
      exact absurd h9 (by decide))

/-- Claim C5: when order_index is out of the slab's range or names an empty
slab slot, the instruction fails with `InvalidArgument` before any external
engine call is issued (empty call log), and the accounts — in particular
the UserAccount — are unchanged. -/
theorem claim_C5_absent_order_rejected {program_id : Pubkey}
    {accounts : List AccountInfo} {params : Params} {engine : EngineBehavior}
    {a : Accounts} {ms m : DexState} {u0 : UserAccount}
    (hparse : Accounts.parse accounts = .ok a)
    (hdeser : DexState.deserialize a.market.data = .ok ms)
    (hcheck : ms.check = .ok m)
    (hload : a.load_user_account = .ok u0)
    (hca : unwrapO (check_accounts program_id m a) = .ok ())
    (hbad : u0.orders.get? params.order_index = none ∨
      u0.orders.get? params.order_index = some none) :
    process program_id accounts params engine = (.err .InvalidArgument, []) ∧
    runCancel program_id accounts params engine = accounts := by
  have hro : u0.read_order params.order_index = .err .InvalidArgument := by
    unfold UserAccount.read_order
    rcases hbad with hb | hb <;> rw [hb]
  have hproc : process program_id accounts params engine = (.err .InvalidArgument, []) := by
    simp only [process, hparse, hdeser, hcheck, hload, hca, hro, Res.bind_liftO_ok,
      Res.bind_liftO_err]
  exact ⟨hproc, runCancel_of_err hproc⟩

/-- Witness for C5 (Scenario C analogue): order_index 7 with slab capacity
2 fails `InvalidArgument` with no engine call and no state change; the
same fixture also covers the empty-slot case via index 1. -/
theorem claim_C5_absent_order_rejected_witness :
    (process 42 accountsFix (Params.mk 7) (.succeeds summaryFix) =
        (.err .InvalidArgument, []) ∧
      runCancel 42 accountsFix (Params.mk 7) (.succeeds summaryFix) = accountsFix) ∧
    (process 42 accountsFix (Params.mk 1) (.succeeds summaryFix) =
        (.err .InvalidArgument, []) ∧
      runCancel 42 accountsFix (Params.mk 1) (.succeeds summaryFix) = accountsFix) :=
  ⟨@claim_C5_absent_order_rejected 42 accountsFix (Params.mk 7) (.succeeds summaryFix)
      accFix marketFix marketFix userFix
      (by decide) (by decide) (by decide) (by decide) (by decide) (Or.inl (by decide)),
    @claim_C5_absent_order_rejected 42 accountsFix (Params.mk 1) (.succeeds summaryFix)
      accFix marketFix marketFix userFix
      (by decide) (by decide) (by decide) (by decide) (by decide) (Or.inr (by decide))⟩

/-- If the engine fails and the call was actually issued (non-empty call
log), the engine's error is what the instruction returns. -/
theorem process_fails_err {program_id : Pubkey} {accounts : List AccountInfo}
    {params : Params} {e : DexError} {r : Outcome (DexState × UserAccount)}
    {cs : List CallRecord}
    (hp : process program_id accounts params (.fails e) = (r, cs)) (hne : cs ≠ []) :
    r = .err e := by
  rcases h1 : Accounts.parse accounts with a | e1 | _
  · rcases h2 : DexState.deserialize a.market.data with ms | e2 | _
    · rcases h3 : DexState.check ms with m | e3 | _
      · rcases h4 : a.load_user_account with u0 | e4 | _
        · rcases h5 : unwrapO (check_accounts program_id m a) with u5 | e5 | _
          · rcases h6 : u0.read_order params.order_index with oid | e6 | _
            · simp only [process, h1, h2, h3, h4, h5, h6, Res.bind_liftO_ok,
                Res.bind_invoke_fails] at hp
              injection hp with hr hcs
              exact hr.symm
            · simp only [process, h1, h2, h3, h4, h5, h6, Res.bind_liftO_ok,
                Res.bind_liftO_err] at hp
              injection hp with hr hcs
              exact absurd hcs.symm hne
            · simp only [process, h1, h2, h3, h4, h5, h6, Res.bind_liftO_ok,
                Res.bind_liftO_fatal] at hp
              injection hp with hr hcs
              exact absurd hcs.symm hne
          · simp only [process, h1, h2, h3, h4, h5, Res.bind_liftO_ok,
              Res.bind_liftO_err] at hp
            injection hp with hr hcs
            exact absurd hcs.symm hne
          · simp only [process, h1, h2, h3, h4, h5, Res.bind_liftO_ok,
              Res.bind_liftO_fatal] at hp
            injection hp with hr hcs
            exact absurd hcs.symm hne
        · simp only [process, h1, h2, h3, h4, Res.bind_liftO_ok, Res.bind_liftO_err] at hp
          injection hp with hr hcs
          exact absurd hcs.symm hne
        · simp only [process, h1, h2, h3, h4, Res.bind_liftO_ok, Res.bind_liftO_fatal] at hp
          injection hp with hr hcs
          exact absurd hcs.symm hne
      · simp only [process, h1, h2, h3, Res.bind_liftO_ok, Res.bind_liftO_err] at hp
        injection hp with hr hcs
        exact absurd hcs.symm hne
      · simp only [process, h1, h2, h3, Res.bind_liftO_ok, Res.bind_liftO_fatal] at hp
        injection hp with hr hcs
        exact absurd hcs.symm hne
    · simp only [process, h1, h2, Res.bind_liftO_ok, Res.bind_liftO_err] at hp
      injection hp with hr hcs
      exact absurd hcs.symm hne
    · simp only [process, h1, h2, Res.bind_liftO_ok, Res.bind_liftO_fatal] at hp
      injection hp with hr hcs
      exact absurd hcs.symm hne
  · simp only [process, h1, Res.bind_liftO_err] at hp
    injection hp with hr hcs
    exact absurd hcs.symm hne
  · simp only [process, h1, Res.bind_liftO_fatal] at hp
    injection hp with hr hcs
    exact absurd hcs.symm hne

/-- Claim C6: when the external engine call returns an error (including
"order not found"), the instruction never succeeds — the error is
propagated verbatim whenever the call was issued, the user-account
write-back is never reached, and under the host's all-or-nothing
persistence every account is byte-identical to its pre-instruction
value. -/
theorem claim_C6_engine_failure_atomic {program_id : Pubkey}
    {accounts : List AccountInfo} {params : Params} {e : DexError}
    {r : Outcome (DexState × UserAccount)} {cs : List CallRecord}
    (hp : process program_id accounts params (.fails e) = (r, cs)) :
    (∀ m u, r ≠ .ok (m, u)) ∧
    (cs ≠ [] → r = .err e) ∧
    runCancel program_id accounts params (.fails e) = accounts := by
  have hnotok : ∀ m u, r ≠ .ok (m, u) := by
    intro m u hr
    rw [hr] at hp
    obtain ⟨a, ms, u1, oid, s', h1, hparse, hdeser, hcheck, hload, hca, hro, hengine, heq,
      happly, hrem, hcs⟩ := process_ok_inv hp
    simp at hengine
  refine ⟨hnotok, fun hne => process_fails_err hp hne, ?_⟩
  rcases r with p | e' | _
  · exact absurd (by rw [Prod.mk.eta]) (hnotok p.1 p.2)
  · exact runCancel_of_err hp
  · exact runCancel_of_fatal hp

/-- Witness for C6 (Scenario B analogue): the engine rejecting the cancel
propagates its error, with the call issued but no state change. -/
theorem claim_C6_engine_failure_atomic_witness :
    process 42 accountsFix (Params.mk 0) (.fails (.AaobError 3)) =
      (.err (.AaobError 3), [callFix]) ∧
    runCancel 42 accountsFix (Params.mk 0) (.fails (.AaobError 3)) = accountsFix :=
  ⟨by decide,
    (@claim_C6_engine_failure_atomic 42 accountsFix (Params.mk 0) (.AaobError 3)
        (.err (.AaobError 3)) [callFix] (by decide)).2.2⟩

/-- Claim C7: a locked balance never goes negative.  If the reported
unwound quantity exceeds the matching locked balance, or the free-side
increment overflows u64, the checked arithmetic's `.unwrap()` turns the
update — and hence the whole instruction — into a fatal, non-recoverable
abort instead of storing a wrapped or negative balance; and when the
locked balance covers the quantity and the increment fits, the update
succeeds with the exact new balances. -/
theorem claim_C7_no_negative_locked {program_id : Pubkey}
    {accounts : List AccountInfo} {params : Params}
    {a : Accounts} {ms m : DexState} {u0 : UserAccount} {oid : Nat} {s : OrderSummary}
    (hparse : Accounts.parse accounts = .ok a)
    (hdeser : DexState.deserialize a.market.data = .ok ms)
    (hcheck : ms.check = .ok m)
    (hload : a.load_user_account = .ok u0)
    (hca : unwrapO (check_accounts program_id m a) = .ok ())
    (hro : u0.read_order params.order_index = .ok oid)
    (heq : deserializeEqHeader a.event_queue.data = .ok ()) :
    (applyBalanceUpdate (get_side_from_order_id oid) s u0.header = .fatal →
      process program_id accounts params (.succeeds s) = (.fatal, [mkCall a oid m])) ∧
    (∀ sq h, (h.quote_token_locked < sq.total_quote_qty ∨
        U64CAP ≤ h.quote_token_free + sq.total_quote_qty) →
      applyBalanceUpdate .Bid sq h = .fatal) ∧
    (∀ sq h, (h.base_token_locked < sq.total_asset_qty ∨
        U64CAP ≤ h.base_token_free + sq.total_asset_qty) →
      applyBalanceUpdate .Ask sq h = .fatal) ∧
    (∀ sq h, sq.total_quote_qty ≤ h.quote_token_locked →
        h.quote_token_free + sq.total_quote_qty < U64CAP →
      applyBalanceUpdate .Bid sq h =
        .ok { h with quote_token_free := h.quote_token_free + sq.total_quote_qty,
                     quote_token_locked := h.quote_token_locked - sq.total_quote_qty }) ∧
    (∀ sq h, sq.total_asset_qty ≤ h.base_token_locked →
        h.base_token_free + sq.total_asset_qty < U64CAP →
      applyBalanceUpdate .Ask sq h =
        .ok { h with base_token_free := h.base_token_free + sq.total_asset_qty,
                     base_token_locked := h.base_token_locked - sq.total_asset_qty }) := by
  refine ⟨?_, ?_, ?_, ?_, ?_⟩
  · intro hfat
    simp only [process, hparse, hdeser, hcheck, hload, hca, hro, Res.bind_liftO_ok,
      Res.bind_invoke_succeeds, heq, unwrapOpt, hfat, Res.bind_liftO_fatal]
  · intro sq h hor
    rcases hor with h1 | h1
    · have hsub : ¬ sq.total_quote_qty ≤ h.quote_token_locked := by omega
      by_cases hadd : h.quote_token_free + sq.total_quote_qty < U64CAP <;>
        simp [applyBalanceUpdate, checked_add, checked_sub, hadd, hsub]
    · have hadd : ¬ h.quote_token_free + sq.total_quote_qty < U64CAP := by omega
      simp [applyBalanceUpdate, checked_add, checked_sub, hadd]
  · intro sq h hor
    rcases hor with h1 | h1
    · have hsub : ¬ sq.total_asset_qty ≤ h.base_token_locked := by omega
      by_cases hadd : h.base_token_free + sq.total_asset_qty < U64CAP <;>
        simp [applyBalanceUpdate, checked_add, checked_sub, hadd, hsub]
    · have hadd : ¬ h.base_token_free + sq.total_asset_qty < U64CAP := by omega
      simp [applyBalanceUpdate, checked_add, checked_sub, hadd]
  · intro sq h hsub hadd
    simp [applyBalanceUpdate, checked_add, checked_sub, hadd, hsub]
  · intro sq h hsub hadd
    simp [applyBalanceUpdate, checked_add, checked_sub, hadd, hsub]

/-- Witness for C7: a fixture with locked (500) smaller than the reported
unwound quantity (600) takes the fatal path — the whole run aborts with a
panic after the engine call, and no wrapped or negative balance is ever
produced. -/
theorem claim_C7_no_negative_locked_witness :
    applyBalanceUpdate (get_side_from_order_id bidOrderFix) summaryOverFix userFix.header =
      .fatal ∧
    process 42 accountsFix (Params.mk 0) (.succeeds summaryOverFix) =
      (.fatal, [callFix]) :=
  ⟨by decide,
    (@claim_C7_no_negative_locked 42 accountsFix (Params.mk 0) accFix marketFix marketFix
        userFix bidOrderFix summaryOverFix
        (by decide) (by decide) (by decide) (by decide) (by decide) (by decide)
        (by decide)).1 (by decide)⟩

/-- Claim C8: a successful cancellation changes nothing except the one
affected free/locked balance pair and the cleared slab slot — the market
record is re-persisted exactly as read, the owner and market references
and the other side's balances are unchanged, the slot at order_index is
cleared, and every other slab slot is untouched. -/
theorem claim_C8_success_frame {program_id : Pubkey} {accounts : List AccountInfo}
    {params : Params} {engine : EngineBehavior} {m' : DexState} {u' : UserAccount}
    {cs : List CallRecord} {ms0 : DexState} {u0 : UserAccount} {s : OrderSummary}
    (hp : process program_id accounts params engine = (.ok (m', u'), cs))
    (hm : (accounts.get? 1).map AccountInfo.data = some (.marketAcc ms0))
    (hu : (accounts.get? 7).map AccountInfo.data = some (.userAcc u0))
    (hs : engine = .succeeds s) :
    m' = ms0 ∧
    u'.header.owner = u0.header.owner ∧
    u'.header.market = u0.header.market ∧
    u'.orders = u0.orders.set params.order_index none ∧
    u'.orders.get? params.order_index = some none ∧
    (∀ j, j ≠ params.order_index → u'.orders.get? j = u0.orders.get? j) ∧
    ∃ oid, u0.read_order params.order_index = .ok oid ∧
      (get_side_from_order_id oid = .Bid →
        u'.header.base_token_free = u0.header.base_token_free ∧
        u'.header.base_token_locked = u0.header.base_token_locked) ∧
      (get_side_from_order_id oid = .Ask →
        u'.header.quote_token_free = u0.header.quote_token_free ∧
        u'.header.quote_token_locked = u0.header.quote_token_locked) := by
  obtain ⟨oid, hro, hown, hmkt, hord, hbid, hask⟩ := process_ok_spec hp hu hs
  have hlt : params.order_index < u0.orders.length := by
    rcases List.get?_eq_some.mp (UserAccount.read_order_ok_inv hro) with ⟨hl, _⟩
    exact hl
  refine ⟨process_ok_market hp hm, hown, hmkt, hord, ?_, ?_, oid, hro, ?_, ?_⟩
  · rw [hord]
    exact List.get?_set_eq_of_lt none hlt
  · intro j hj
    rw [hord]
    exact List.get?_set_ne none u0.orders (Ne.symm hj)
  · intro hside
    obtain ⟨hle, hlt2, hh⟩ := hbid hside
    rw [hh]
    exact ⟨rfl, rfl⟩
  · intro hside
    obtain ⟨hle, hlt2, hh⟩ := hask hside
    rw [hh]
    exact ⟨rfl, rfl⟩

/-- Witness for C8: on the Scenario A fixture, the market record round-trips
unchanged, slot 0 is cleared, slot 1 is untouched, and the owner reference
is preserved. -/
theorem claim_C8_success_frame_witness :
    process 42 accountsFix (Params.mk 0) (.succeeds summaryFix) =
      (.ok (marketFix, userFixAfter), [callFix]) ∧
    marketFix = marketFix ∧
    userFixAfter.orders.get? 0 = some none ∧
    userFixAfter.orders.get? 1 = userFix.orders.get? 1 ∧
    userFixAfter.header.owner = userFix.header.owner :=
  ⟨by decide,
    (@claim_C8_success_frame 42 accountsFix (Params.mk 0) (.succeeds summaryFix)
        marketFix userFixAfter [callFix] marketFix userFix summaryFix
        (by decide) (by decide) (by decide) rfl).1,
    (@claim_C8_success_frame 42 accountsFix (Params.mk 0) (.succeeds summaryFix)
        marketFix userFixAfter [callFix] marketFix userFix summaryFix
        (by decide) (by decide) (by decide) rfl).2.2.2.2.1,
    (@claim_C8_success_frame 42 accountsFix (Params.mk 0) (.succeeds summaryFix)
        marketFix userFixAfter [callFix] marketFix userFix summaryFix
        (by decide) (by decide) (by decide) rfl).2.2.2.2.2.1 1 (by decide),
    (@claim_C8_success_frame 42 accountsFix (Params.mk 0) (.succeeds summaryFix)
        marketFix userFixAfter [callFix] marketFix userFix summaryFix
        (by decide) (by decide) (by decide) rfl).2.1⟩

/-- Claim C9: the cancel instruction consumes exactly nine account
references in the fixed order external-engine program, market, derived
market-signer, order-book, result region, bid structure, ask structure,
user account, user-owner; fewer than nine makes parsing fail before any
state change, and parsing only succeeds when the user-owner is an
authenticated signer. -/
theorem claim_C9_account_set_contract {accounts : List AccountInfo} :
    (accounts.length < 9 →
      Accounts.parse accounts = .err .NotEnoughAccountKeys ∧
      ∀ (program_id : Pubkey) (params : Params) (engine : EngineBehavior),
        runCancel program_id accounts params engine = accounts) ∧
    (∀ a, Accounts.parse accounts = .ok a →
      accounts.get? 0 = some a.aaob_program ∧
      accounts.get? 1 = some a.market ∧
      accounts.get? 2 = some a.market_signer ∧
      accounts.get? 3 = some a.orderbook ∧
      accounts.get? 4 = some a.event_queue ∧
      accounts.get? 5 = some a.bids ∧
      accounts.get? 6 = some a.asks ∧
      accounts.get? 7 = some a.user ∧
      accounts.get? 8 = some a.user_owner ∧
      a.user_owner.is_signer = true) := by
  constructor
  · intro hlen
    have hparse := Accounts.parse_short hlen
    refine ⟨hparse, ?_⟩
    intro program_id params engine
    have hproc : process program_id accounts params engine =
        (.err .NotEnoughAccountKeys, []) := by
      simp only [process, hparse, Res.bind_liftO_err]
    exact runCancel_of_err hproc
  · intro a hparse
    obtain ⟨rest, hacc, hsig⟩ := Accounts.parse_ok_inv hparse
    subst hacc
    exact ⟨rfl, rfl, rfl, rfl, rfl, rfl, rfl, rfl, rfl, hsig⟩

/-- Witness for C9: an empty account list fails with
`NotEnoughAccountKeys` and changes nothing; the nine-account fixture
parses into exactly its nine references and its ninth account is an
authenticated signer. -/
theorem claim_C9_account_set_contract_witness :
    Accounts.parse ([] : List AccountInfo) = .err .NotEnoughAccountKeys ∧
    runCancel 42 ([] : List AccountInfo) (Params.mk 0) (.succeeds summaryFix) = [] ∧
    accountsFix.get? 0 = some accFix.aaob_program ∧
    accountsFix.get? 8 = some accFix.user_owner ∧
    accFix.user_owner.is_signer = true :=
  ⟨((@claim_C9_account_set_contract []).1 (by decide)).1,
    ((@claim_C9_account_set_contract []).1 (by decide)).2 42 (Params.mk 0)
      (.succeeds summaryFix),
    ((@claim_C9_account_set_contract accountsFix).2 accFix (by decide)).1,
    ((@claim_C9_account_set_contract accountsFix).2 accFix (by decide)).2.2.2.2.2.2.2.2.1,
    ((@claim_C9_account_set_contract accountsFix).2 accFix (by decide)).2.2.2.2.2.2.2.2.2⟩

/-- The call log of any run is either empty (the run aborted before the
engine call) or exactly the one cancel call, issued only after every
cross-check passed. -/
theorem process_log_spec (program_id : Pubkey) (accounts : List AccountInfo)
    (params : Params) (engine : EngineBehavior) :
    (process program_id accounts params engine).2 = [] ∨
    ∃ a ms m u0 oid,
      Accounts.parse accounts = .ok a ∧
      DexState.deserialize a.market.data = .ok ms ∧
      ms.check = .ok m ∧
      a.load_user_account = .ok u0 ∧
      unwrapO (check_accounts program_id m a) = .ok () ∧
      u0.read_order params.order_index = .ok oid ∧
      (process program_id accounts params engine).2 = [mkCall a oid m] := by
  rcases h1 : Accounts.parse accounts with a | e1 | _
  · rcases h2 : DexState.deserialize a.market.data with ms | e2 | _
    · rcases h3 : DexState.check ms with m | e3 | _
      · rcases h4 : a.load_user_account with u0 | e4 | _
        · rcases h5 : unwrapO (check_accounts program_id m a) with u5 | e5 | _
          · rcases h6 : u0.read_order params.order_index with oid | e6 | _
            · right
              refine ⟨a, ms, m, u0, oid, rfl, h2, h3, h4, h5, h6, ?_⟩
              cases engine with
              | fails e =>
                simp only [process, h1, h2, h3, h4, h5, h6, Res.bind_liftO_ok,
                  Res.bind_invoke_fails]
              | succeeds s =>
                simp only [process, h1, h2, h3, h4, h5, h6, Res.bind_liftO_ok,
                  Res.bind_invoke_succeeds]
                simp only [List.cons.injEq, true_and]
                rcases h7 : deserializeEqHeader a.event_queue.data with u7 | e7 | _ <;>
                  simp only [h7, Res.bind_liftO_ok, Res.bind_liftO_err, Res.bind_liftO_fatal,
                    unwrapOpt]
                rcases h8 : applyBalanceUpdate (get_side_from_order_id oid) s u0.header
                    with h8v | e8 | _ <;>
                  simp only [h8, Res.bind_liftO_ok, Res.bind_liftO_err, Res.bind_liftO_fatal]
                rcases h9 : UserAccount.remove_order
                    { u0 with header := h8v } params.order_index with u9 | e9 | _ <;>
                  simp only [h9, Res.bind_liftO_ok, Res.bind_liftO_err, Res.bind_liftO_fatal]
            · left
              simp only [process, h1, h2, h3, h4, h5, h6, Res.bind_liftO_ok,
                Res.bind_liftO_err]
            · left
              simp only [process, h1, h2, h3, h4, h5, h6, Res.bind_liftO_ok,
                Res.bind_liftO_fatal]
          · left
            simp only [process, h1, h2, h3, h4, h5, Res.bind_liftO_ok, Res.bind_liftO_err]
          · left
            simp only [process, h1, h2, h3, h4, h5, Res.bind_liftO_ok, Res.bind_liftO_fatal]
        · left
          simp only [process, h1, h2, h3, h4, Res.bind_liftO_ok, Res.bind_liftO_err]
        · left
          simp only [process, h1, h2, h3, h4, Res.bind_liftO_ok, Res.bind_liftO_fatal]
      · left
        simp only [process, h1, h2, h3, Res.bind_liftO_ok, Res.bind_liftO_err]
      · left
        simp only [process, h1, h2, h3, Res.bind_liftO_ok, Res.bind_liftO_fatal]
    · left
      simp only [process, h1, h2, Res.bind_liftO_ok, Res.bind_liftO_err]
    · left
      simp only [process, h1, h2, Res.bind_liftO_ok, Res.bind_liftO_fatal]
  · left
    simp only [process, h1, Res.bind_liftO_err]
  · left
    simp only [process, h1, Res.bind_liftO_fatal]

/-- Claim C10: any engine call a cancel-order run ever issues is signed
with exactly the seed set (market key bytes, stored nonce) from which the
market-signer address was derived and verified by the account
cross-checks, so the market's delegated signature is produced only for
the previously verified derived signer address. -/
theorem claim_C10_seeds_match_verified_signer {program_id : Pubkey}
    {accounts : List AccountInfo} {params : Params} {engine : EngineBehavior}
    {c : CallRecord}
    (hc : c ∈ (process program_id accounts params engine).2) :
    ∃ a m, Accounts.parse accounts = .ok a ∧
      (∃ ms, DexState.deserialize a.market.data = .ok ms ∧ ms.check = .ok m) ∧
      c.seeds = [pubkeyBytes a.market.key, [m.signer_nonce]] ∧
      c.market_signer = a.market_signer.key ∧
      a.market_signer.key = create_program_address c.seeds program_id := by
  rcases process_log_spec program_id accounts params engine with hl |
    ⟨a, ms, m, u0, oid, h1, h2, h3, h4, h5, h6, hl⟩
  · rw [hl] at hc
    simp at hc
  · rw [hl] at hc
    simp only [List.mem_singleton] at hc
    subst hc
    obtain ⟨hsig, hob, hpr⟩ := check_accounts_ok_iff.mp h5
    exact ⟨a, m, h1, ⟨ms, h2, h3⟩, rfl, rfl, hsig⟩

/-- Witness for C10: the call issued on the Scenario A fixture carries the
seed set [market key bytes, nonce], and its derivation equals the verified
market-signer address. -/
theorem claim_C10_seeds_match_verified_signer_witness :
    ∃ a m, Accounts.parse accountsFix = .ok a ∧
      (∃ ms, DexState.deserialize a.market.data = .ok ms ∧ ms.check = .ok m) ∧
      callFix.seeds = [pubkeyBytes a.market.key, [m.signer_nonce]] ∧
      callFix.market_signer = a.market_signer.key ∧
      a.market_signer.key = create_program_address callFix.seeds 42 :=
  @claim_C10_seeds_match_verified_signer 42 accountsFix (Params.mk 0)
    (.succeeds summaryFix) callFix (by decide)
